import Mathlib

set_option linter.unusedVariables false

/-!
Shallow embedding of the Dynamixel Protocol 2 bus driver (`src/bus.rs`).

Bytes are modelled as natural numbers (values below 256 in well-formed
frames).  Buffers are `List Nat` of fixed physical length (the capacity);
the bus keeps a `read_len` counter and the valid bytes are `buf.take read_len`,
exactly as in the source, where the valid region is `read_buffer[..read_len]`.

The byte-stuffing codec (`crate::bytestuff`), the checksum
(`crate::checksum::calculate_checksum`), the error types (`crate::error`)
and the status instruction constant (`crate::instructions`) are not part of
the provided source file; they are modelled from the specification's
interface contracts (§6, §3, §7) and marked as such in their doc comments.
The checksum is kept abstract: every definition and theorem that needs it
takes an arbitrary function `crc : List Nat → Nat` (with the 16-bit range
hypothesis where required), matching the spec's "seeded rolling checksum
over an arbitrary byte slice" contract with seed 0.
-/

/-- The fixed four-byte frame-start constant (`HEADER_PREFIX` in the source:
`[0xFF, 0xFF, 0xFD, 0x00]`). -/
def HEADER_MAGIC : List Nat := [0xFF, 0xFF, 0xFD, 0x00]

/-- `HEADER_SIZE` from the source: bytes of an instruction-frame header
(4 magic + 1 packet id + 2 length + 1 instruction id). -/
def HEADER_SIZE : Nat := 8

/-- `STATUS_HEADER_SIZE` from the source: bytes of a status-frame header
(instruction header plus the error byte). -/
def STATUS_HEADER_SIZE : Nat := 9

/-- Modelled from the spec: the fixed "status" marker byte
(`crate::instructions::instruction_id::STATUS`, not part of the provided
source; Protocol 2 uses `0x55`). -/
def STATUS_ID : Nat := 0x55

/-- Little-endian encoding of a 16-bit value as two bytes
(the `write_u16_le` helper, specified in §6 as an external leaf). -/
def le16 (v : Nat) : List Nat := [v % 256, v / 256 % 256]

/-- Little-endian decoding of two bytes (`read_u16_le`). -/
def readU16le (b0 b1 : Nat) : Nat := b0 + 256 * b1

/-- Modelled from the spec: state transition of the escape scanner used by
the byte-stuffing codec.  The state counts how many bytes of the escape
pattern `FF FF FD` (the first three bytes of the header magic) are currently
matched, saturating at 2; a full match is handled separately. -/
def stuffNext (s b : Nat) : Nat := if b = 0xFF then min (s + 1) 2 else 0

/-- Modelled from the spec (§6): worker for the in-place escaping transform
`bytestuff::stuff_inplace` (not part of the provided source).  Whenever the
body contains the three-byte pattern `FF FF FD`, a marker byte `0xFD` is
inserted immediately after the third matching byte. -/
def stuffAux : Nat → List Nat → List Nat
  | _, [] => []
  | s, b :: rest =>
    if s = 2 ∧ b = 0xFD then b :: 0xFD :: stuffAux 0 rest
    else b :: stuffAux (stuffNext s b) rest

/-- Modelled from the spec (§6): the escaping transform applied to a frame
body, starting with nothing matched. -/
def stuff (params : List Nat) : List Nat := stuffAux 0 params

/-- Modelled from the spec (§6): worker for the in-place inverse transform
`bytestuff::unstuff_inplace`.  The byte following a matched `FF FF FD`
pattern (the inserted `0xFD` marker) is dropped. -/
def unstuffAux : Nat → List Nat → List Nat
  | _, [] => []
  | _, [b] => [b]
  | s, b :: c :: rest =>
    if s = 2 ∧ b = 0xFD then b :: unstuffAux 0 rest
    else b :: unstuffAux (stuffNext s b) (c :: rest)

/-- Modelled from the spec (§6): the inverse of `stuff`. -/
def unstuff (body : List Nat) : List Nat := unstuffAux 0 body

theorem stuffAux_ne_nil (s b : Nat) (rest : List Nat) :
    stuffAux s (b :: rest) ≠ [] := by
  rw [stuffAux]; split <;> simp

/-- The unstuffing transform undoes the stuffing transform (§6: "the
inverse"), for every scanner state. -/
theorem unstuffAux_stuffAux (l : List Nat) : ∀ s, unstuffAux s (stuffAux s l) = l := by
  induction l with
  | nil => intro s; rfl
  | cons b rest ih =>
    intro s
    rw [stuffAux]
    by_cases h : s = 2 ∧ b = 0xFD
    · rw [if_pos h, unstuffAux, if_pos h, ih]
    · rw [if_neg h]
      cases hr : stuffAux (stuffNext s b) rest with
      | nil =>
        cases rest with
        | nil => rfl
        | cons c rs => exact absurd hr (stuffAux_ne_nil _ _ _)
      | cons c rs =>
        rw [unstuffAux, if_neg h, ← hr, ih]

theorem unstuff_stuff (l : List Nat) : unstuff (stuff l) = l :=
  unstuffAux_stuffAux l 0

theorem unstuffAux_length_le : ∀ (l : List Nat) (s : Nat), (unstuffAux s l).length ≤ l.length
  | [], _ => by simp [unstuffAux]
  | [b], _ => by simp [unstuffAux]
  | b :: c :: rest, s => by
    rw [unstuffAux]
    split
    · have h := unstuffAux_length_le rest 0
      simp only [List.length_cons]
      omega
    · have h := unstuffAux_length_le (c :: rest) (stuffNext s b)
      simp only [List.length_cons] at h ⊢
      omega

theorem unstuff_length_le (l : List Nat) : (unstuff l).length ≤ l.length :=
  unstuffAux_length_le l 0

/-- The per-position test of the source's `find_header` loop:
does the byte list begin with the (possibly clipped) header magic?
This is `buffer[i..].starts_with(&HEADER_PREFIX[..possible_prefix])` with
`possible_prefix = HEADER_PREFIX.len().min(buffer.len() - i)`, applied to
the suffix `buffer[i..]`. -/
def magicFragAt (l : List Nat) : Bool :=
  (HEADER_MAGIC.take (min HEADER_MAGIC.length l.length)).isPrefixOf l

/-- `find_header` from the source: the first index whose suffix starts with a
(possibly clipped) header magic, or the buffer length when there is none. -/
def find_header : List Nat → Nat
  | [] => 0
  | b :: rest => if magicFragAt (b :: rest) then 0 else find_header rest + 1

/-- The mutable read-side state of the `Bus`: the physical read buffer
(whose length is the fixed capacity) and the `read_len` counter.  The valid
bytes are `buf.take readLen`, i.e. `read_buffer[..read_len]` in the source. -/
structure BusState where
  buf : List Nat
  readLen : Nat
  deriving DecidableEq

/-- The valid region `read_buffer[..read_len]`. -/
def validRegion (st : BusState) : List Nat := st.buf.take st.readLen

/-- `slice.copy_within(src..stop, 0)`: the bytes at `[src, stop)` move to the
front of the buffer; the rest of the buffer keeps its (stale) contents. -/
def copyWithin (l : List Nat) (src stop : Nat) : List Nat :=
  (l.drop src).take (stop - src) ++ l.drop (stop - src)

/-- `Bus::consume_read_bytes`: shift `read_buffer[len..read_len]` down to
offset 0 and decrement `read_len` by `len`.  The source guards the call with
`debug_assert!(len <= self.read_len)`; theorems carry that as a hypothesis. -/
def consume_read_bytes (st : BusState) (len : Nat) : BusState :=
  { buf := copyWithin st.buf len st.readLen, readLen := st.readLen - len }

/-- `Bus::remove_garbage`: drop everything before the first (possibly
clipped) header-magic match in the valid region. -/
def remove_garbage (st : BusState) : BusState :=
  consume_read_bytes st (find_header (validRegion st))

/-- One successful `stream.read(&mut read_buffer[read_len..])` call that the
transport answers with `chunk`: at most the free space of the buffer is
delivered, the delivered bytes land at offset `read_len`, and `read_len`
grows by the delivered count. -/
def appendChunk (st : BusState) (chunk : List Nat) : BusState :=
  let delivered := chunk.take (st.buf.length - st.readLen)
  { buf := st.buf.take st.readLen ++ delivered ++ st.buf.drop (st.readLen + delivered.length),
    readLen := st.readLen + delivered.length }

theorem find_header_le_length (l : List Nat) : find_header l ≤ l.length := by
  induction l with
  | nil => simp [find_header]
  | cons b rest ih =>
    rw [find_header]
    split
    · simp
    · simpa using ih

theorem magicFragAt_drop_find_header (l : List Nat) :
    magicFragAt (l.drop (find_header l)) = true := by
  induction l with
  | nil => decide
  | cons b rest ih =>
    rw [find_header]
    split
    · simpa using ‹magicFragAt (b :: rest) = true›
    · simpa using ih

theorem find_header_minimal (l : List Nat) :
    ∀ j < find_header l, magicFragAt (l.drop j) = false := by
  induction l with
  | nil => simp [find_header]
  | cons b rest ih =>
    rw [find_header]
    split
    · simp
    · intro j hj
      cases j with
      | zero => simpa using ‹¬ magicFragAt (b :: rest) = true›
      | succ j' =>
        have := ih j' (by omega)
        simpa using this

/-- `find_header` is determined by its two characteristic properties: it is
the least position whose suffix starts with a clipped header magic. -/
theorem find_header_eq_of (l : List Nat) :
    ∀ n, n ≤ l.length → magicFragAt (l.drop n) = true →
    (∀ j < n, magicFragAt (l.drop j) = false) → find_header l = n := by
  induction l with
  | nil =>
    intro n hn _ _
    have : n = 0 := by simpa using hn
    subst this; rfl
  | cons b rest ih =>
    intro n hn hat hmin
    cases n with
    | zero =>
      rw [find_header, if_pos]
      simpa using hat
    | succ m =>
      rw [find_header, if_neg]
      · have : find_header rest = m := by
          apply ih m (by simpa using hn) (by simpa using hat)
          intro j hj
          have := hmin (j + 1) (by omega)
          simpa using this
        omega
      · have := hmin 0 (by omega)
        simpa using this

theorem magicFragAt_true_iff_of_ge (l : List Nat) (h : 4 ≤ l.length) :
    magicFragAt l = true ↔ HEADER_MAGIC <+: l := by
  unfold magicFragAt
  rw [min_eq_left (by simpa [HEADER_MAGIC] using h), List.take_length,
    List.isPrefixOf_iff_prefix]

theorem magicFragAt_of_magic_start (l : List Nat) (h : HEADER_MAGIC <+: l) :
    magicFragAt l = true := by
  have hl : 4 ≤ l.length := by
    have := h.length_le; simpa [HEADER_MAGIC] using this
  exact (magicFragAt_true_iff_of_ge l hl).mpr h

theorem find_header_eq_zero_of_frag (l : List Nat) (h : magicFragAt l = true) :
    find_header l = 0 := by
  cases l with
  | nil => rfl
  | cons b rest => rw [find_header, if_pos h]

theorem magic_start_append_iff (g F : List Nat) (h : 4 ≤ g.length) :
    HEADER_MAGIC <+: (g ++ F) ↔ HEADER_MAGIC <+: g := by
  constructor
  · intro hp
    rw [List.prefix_iff_eq_take] at hp ⊢
    rwa [List.take_append_of_le_length (by simpa [HEADER_MAGIC] using h)] at hp
  · intro hp
    exact hp.trans (List.prefix_append g F)

/-- A strict suffix of at most three garbage bytes followed by the full
header magic can never itself look like the header magic: the magic pattern
does not overlap itself. -/
theorem magicFragAt_overlap_false (g tail : List Nat) (h1 : 1 ≤ g.length) (h3 : g.length ≤ 3) :
    magicFragAt (g ++ (0xFF :: 0xFF :: 0xFD :: 0x00 :: tail)) = false := by
  have hlen : HEADER_MAGIC.length ≤ (g ++ (0xFF :: 0xFF :: 0xFD :: 0x00 :: tail)).length := by
    simp [HEADER_MAGIC]; omega
  unfold magicFragAt
  rw [min_eq_left hlen, List.take_length]
  match g, h1, h3 with
  | [a], _, _ => simp [HEADER_MAGIC, List.isPrefixOf]
  | [a, b], _, _ => simp [HEADER_MAGIC, List.isPrefixOf]
  | [a, b, c], _, _ => simp [HEADER_MAGIC, List.isPrefixOf]

/-- When a frame starting with the full header magic follows garbage `G`
that contains no full header-magic occurrence, the source's scan finds the
header exactly at the end of the garbage: exactly `G.length` bytes are
classified as garbage. -/
theorem find_header_append_magic (G F : List Nat) (hF : HEADER_MAGIC <+: F)
    (hG : ∀ i, i + 4 ≤ G.length → ¬ HEADER_MAGIC <+: G.drop i) :
    find_header (G ++ F) = G.length := by
  have hFlen : 4 ≤ F.length := by
    have := hF.length_le; simpa [HEADER_MAGIC] using this
  apply find_header_eq_of
  · simp
  · rw [List.drop_left]
    exact magicFragAt_of_magic_start F hF
  · intro j hj
    rw [List.drop_append_of_le_length (le_of_lt hj)]
    rcases Nat.lt_or_ge (j + 4) (G.length + 1) with hk | hk
    · -- the window lies entirely inside the garbage
      have h4 : 4 ≤ (G.drop j).length := by simp; omega
      apply Bool.eq_false_iff.mpr
      intro habs
      have hp := (magicFragAt_true_iff_of_ge _ (by simp; omega)).mp habs
      have hp2 := (magic_start_append_iff _ _ h4).mp hp
      exact hG j (by omega) hp2
    · -- the window straddles the garbage/frame boundary
      obtain ⟨tail, rfl⟩ := hF
      have : HEADER_MAGIC ++ tail = 0xFF :: 0xFF :: 0xFD :: 0x00 :: tail := by
        simp [HEADER_MAGIC]
      rw [this]
      exact magicFragAt_overlap_false (G.drop j) tail (by simp; omega) (by simp; omega)

theorem consume_read_bytes_zero (st : BusState) : consume_read_bytes st 0 = st := by
  cases st with
  | mk buf readLen => simp [consume_read_bytes, copyWithin]

theorem buf_length_consume (st : BusState) (len : Nat) (h1 : len ≤ st.readLen)
    (h2 : st.readLen ≤ st.buf.length) :
    (consume_read_bytes st len).buf.length = st.buf.length := by
  simp [consume_read_bytes, copyWithin]
  omega

theorem validRegion_consume (st : BusState) (len : Nat) (h1 : len ≤ st.readLen)
    (h2 : st.readLen ≤ st.buf.length) :
    validRegion (consume_read_bytes st len) = (validRegion st).drop len := by
  unfold validRegion consume_read_bytes copyWithin
  rw [List.take_append_of_le_length (by simp; omega), List.take_take, min_self,
    List.drop_take]

theorem appendChunk_readLen (st : BusState) (chunk : List Nat) :
    (appendChunk st chunk).readLen
      = st.readLen + min chunk.length (st.buf.length - st.readLen) := by
  simp [appendChunk]
  omega

theorem appendChunk_buf_length (st : BusState) (chunk : List Nat)
    (h : st.readLen ≤ st.buf.length) :
    (appendChunk st chunk).buf.length = st.buf.length := by
  simp [appendChunk]
  omega

theorem validRegion_appendChunk (st : BusState) (chunk : List Nat)
    (h : st.readLen ≤ st.buf.length) :
    validRegion (appendChunk st chunk)
      = validRegion st ++ chunk.take (st.buf.length - st.readLen) := by
  unfold validRegion appendChunk
  simp only []
  rw [show st.readLen + (chunk.take (st.buf.length - st.readLen)).length
      = (st.buf.take st.readLen ++ chunk.take (st.buf.length - st.readLen)).length from by
        simp; omega]
  rw [List.take_left]

/-- The possible results of `Bus::read_status_response`, each carrying the
bus state it leaves behind.  `timeout` is the `TimedOut` error of the
deadline check; `panicLenUnderflow` marks the `usize` underflow of
`body_len - 2` (line 164: an arithmetic-overflow panic in debug builds, a
wrap in release builds) reached when the wire length field is 0 or 1;
`invalidChecksum`, `invalidInstruction` and `motorError` are the error
returns (for the latter two the `?` operator drops the freshly built
`Response`, so their states have the frame already consumed); `response` is
the success case, carrying the still-unconsumed state plus the stuffed
frame length that the `Response` handle consumes when dropped.  `fuelOut`
marks exhaustion of the modelled event schedule (the real loop would keep
polling). -/
inductive ReadOutcome where
  | timeout (st : BusState)
  | fuelOut (st : BusState)
  | panicLenUnderflow (st : BusState)
  | invalidChecksum (message computed : Nat) (st : BusState)
  | invalidInstruction (instruction : Nat) (st : BusState)
  | motorError (error : Nat) (st : BusState)
  | response (packetId error : Nat) (parameters : List Nat) (stuffedLen : Nat) (st : BusState)
  deriving DecidableEq

/-- The bus state left behind by a read outcome. -/
def ReadOutcome.stateOf : ReadOutcome → BusState
  | .timeout st => st
  | .fuelOut st => st
  | .panicLenUnderflow st => st
  | .invalidChecksum _ _ st => st
  | .invalidInstruction _ st => st
  | .motorError _ st => st
  | .response _ _ _ _ st => st

/-- `Drop for Response` (lines 278-286): releasing the handle runs
`consume_read_bytes(stuffed_message_len)`, shifting the bytes after the
frame to offset 0 and decrementing the valid length. -/
def dropResponse (st : BusState) (stuffedLen : Nat) : BusState :=
  consume_read_bytes st stuffedLen

/-- The tail of `Bus::read_status_response` after the polling loop has found
a structurally complete frame of stuffed length `stuffedLen` (lines
171-198): verify the trailing checksum, discarding exactly this frame and
failing on mismatch; unstuff the parameter region in place; build the
`Response`; run the instruction-id check and the motor-error check, each of
which returns through `?` and thereby drops the `Response`, consuming the
frame.  In-place unstuffing is modelled as replacing
`buf[STATUS_HEADER_SIZE .. STATUS_HEADER_SIZE + parameter_count]` with the
unstuffed parameters and keeping the original bytes afterwards; the real
code leaves unspecified stale bytes between the unstuffed parameters and
`parameters_end`, which no later operation reads. -/
def finish_status_frame (crc : List Nat → Nat) (stuffedLen : Nat) (st : BusState) : ReadOutcome :=
  let parametersEnd := stuffedLen - 2
  let checksumMessage := readU16le (st.buf.getD parametersEnd 0) (st.buf.getD (parametersEnd + 1) 0)
  let checksumComputed := crc (st.buf.take parametersEnd)
  if checksumMessage ≠ checksumComputed then
    .invalidChecksum checksumMessage checksumComputed (consume_read_bytes st stuffedLen)
  else
    let parameters := unstuff ((st.buf.take parametersEnd).drop STATUS_HEADER_SIZE)
    let st' : BusState :=
      { buf := st.buf.take STATUS_HEADER_SIZE ++ parameters
          ++ st.buf.drop (STATUS_HEADER_SIZE + parameters.length),
        readLen := st.readLen }
    let instructionId := st'.buf.getD 7 0
    if instructionId ≠ STATUS_ID then
      .invalidInstruction instructionId (consume_read_bytes st' stuffedLen)
    else
      let errorCode := st'.buf.getD 8 0
      if errorCode ≠ 0 then .motorError errorCode (consume_read_bytes st' stuffedLen)
      else .response (st'.buf.getD 4 0) errorCode parameters stuffedLen st'

/-- The polling loop of `Bus::read_status_response` (lines 140-169).  The
wall clock and the transport are modelled by a finite schedule of events:
iteration `i` observes `Instant::now() = events[i].1` at the deadline check
and its `stream.read` call delivers `events[i].2` (clipped to the free
buffer space, since the read writes into `read_buffer[read_len..]`).
`deadline` is `Instant::now() + read_timeout`, computed once at entry.  A
delivery of zero bytes re-enters the loop without touching the buffer,
exactly like the source's `continue`. -/
def readLoop (crc : List Nat → Nat) (deadline : Nat) :
    List (Nat × List Nat) → BusState → ReadOutcome
  | [], st => .fuelOut st
  | (now, chunk) :: rest, st =>
    if deadline < now then .timeout st
    else if (chunk.take (st.buf.length - st.readLen)).length = 0 then
      readLoop crc deadline rest st
    else
      let st2 := remove_garbage (appendChunk st chunk)
      if ¬ HEADER_MAGIC.isPrefixOf (validRegion st2) then readLoop crc deadline rest st2
      else if st2.readLen < STATUS_HEADER_SIZE then readLoop crc deadline rest st2
      else
        let bodyLenRaw := (validRegion st2).getD 5 0 + (validRegion st2).getD 6 0 * 256
        if bodyLenRaw < 2 then .panicLenUnderflow st2
        else if STATUS_HEADER_SIZE + (bodyLenRaw - 2) ≤ st2.readLen then
          finish_status_frame crc (STATUS_HEADER_SIZE + (bodyLenRaw - 2)) st2
        else readLoop crc deadline rest st2

/-- `Bus::read_status_response`, lines 139-199. -/
def read_status_response (crc : List Nat → Nat) (deadline : Nat)
    (events : List (Nat × List Nat)) (st : BusState) : ReadOutcome :=
  readLoop crc deadline events st

/-- The outcome of `Bus::write_instruction`: a panic because the write
buffer cannot hold the raw message (line 109), a failure because the
stuffed body (which may grow) no longer fits the buffer (the `unwrap` of
`stuff_inplace`, line 122, together with the subsequent checksum write), or
the wire frame handed to `stream.write_all`. -/
inductive WriteOutcome where
  | panicBufferTooSmall
  | stuffingFailed
  | sent (message : List Nat)
  deriving DecidableEq

/-- `Bus::write_instruction` (lines 90-136), as the bytes handed to
`stream.write_all`: header magic, packet id, a length field patched with
`stuffed_body_len as u16 + 3` (the `as u16` cast is the `% 65536`),
instruction id, the stuffed parameters, and the little-endian checksum
computed over `buffer[..HEADER_SIZE + stuffed_body_len]`. -/
def write_instruction (crc : List Nat → Nat) (writeCap : Nat)
    (packetId instructionId : Nat) (params : List Nat) : WriteOutcome :=
  if writeCap < HEADER_SIZE + params.length + 2 then .panicBufferTooSmall
  else
    let body := stuff params
    if writeCap < HEADER_SIZE + body.length + 2 then .stuffingFailed
    else
      let field := (body.length % 65536 + 3) % 65536
      let core := HEADER_MAGIC ++ [packetId, field % 256, field / 256 % 256, instructionId] ++ body
      .sent (core ++ le16 (crc core))

/-- `Bus::write_instruction` as a state transformer on the read-side state:
the very first statement of the function is `self.read_len = 0` (line 104),
before the capacity check, the encoding and the transmission, so the read
buffer's valid length is zeroed on every invocation, also on failing
ones. -/
def write_instruction_state (crc : List Nat → Nat) (writeCap : Nat) (st : BusState)
    (packetId instructionId : Nat) (params : List Nat) : BusState × WriteOutcome :=
  let st1 : BusState := { st with readLen := 0 }
  if writeCap < HEADER_SIZE + params.length + 2 then (st1, .panicBufferTooSmall)
  else if writeCap < HEADER_SIZE + (stuff params).length + 2 then (st1, .stuffingFailed)
  else (st1, write_instruction crc writeCap packetId instructionId params)

/-- The outcome of `Bus::transfer_single`. -/
inductive TransferOutcome where
  | writeFailed (w : WriteOutcome)
  | readFailed (r : ReadOutcome)
  | invalidPacketId (actual expected : Nat) (st : BusState)
  | ok (packetId error : Nat) (parameters : List Nat) (stuffedLen : Nat) (st : BusState)
  deriving DecidableEq

/-- `Bus::transfer_single` (lines 73-87): write the instruction, read one
status response, then
`InvalidPacketId::check(response.packet_id(), packet_id)` — modelled from
the spec (§4.4): the check fails exactly when the response's packet id
differs from the sent one (`crate::error` is not part of the provided
source).  A failing check returns through `?`, dropping the `Response` and
thereby consuming the frame.  No branch inspects whether `packet_id` is the
broadcast id; the function treats every id alike. -/
def transfer_single (crc : List Nat → Nat) (writeCap : Nat) (deadline : Nat)
    (events : List (Nat × List Nat)) (st : BusState)
    (packetId instructionId : Nat) (params : List Nat) : TransferOutcome :=
  match write_instruction_state crc writeCap st packetId instructionId params with
  | (st1, .sent _) =>
    match read_status_response crc deadline events st1 with
    | .response pid err prms stuffedLen st2 =>
      if pid ≠ packetId then .invalidPacketId pid packetId (dropResponse st2 stuffedLen)
      else .ok pid err prms stuffedLen st2
    | r => .readFailed r
  | (_, w) => .writeFailed w

/-- A well-formed status frame without its checksum (§3 wire layout):
header magic, packet id, little-endian length field counting the stuffed
parameters plus 4 (instruction byte, error byte, two checksum bytes), the
status marker, an error code, and the stuffed parameters. -/
def statusFrameCore (packetId errorCode : Nat) (params : List Nat) : List Nat :=
  [0xFF, 0xFF, 0xFD, 0x00, packetId,
    ((stuff params).length + 4) % 256, ((stuff params).length + 4) / 256 % 256,
    STATUS_ID, errorCode] ++ stuff params

/-- A complete well-formed status frame: the core followed by the
little-endian checksum over the core. -/
def mkStatusFrame (crc : List Nat → Nat) (packetId errorCode : Nat) (params : List Nat) :
    List Nat :=
  statusFrameCore packetId errorCode params
    ++ le16 (crc (statusFrameCore packetId errorCode params))

theorem statusFrameCore_length (packetId errorCode : Nat) (params : List Nat) :
    (statusFrameCore packetId errorCode params).length = 9 + (stuff params).length := by
  simp [statusFrameCore]
  omega

theorem mkStatusFrame_length (crc : List Nat → Nat) (packetId errorCode : Nat)
    (params : List Nat) :
    (mkStatusFrame crc packetId errorCode params).length = 11 + (stuff params).length := by
  simp [mkStatusFrame, statusFrameCore_length, le16]
  omega

theorem readU16le_le16 (v : Nat) (h : v < 65536) :
    readU16le (v % 256) (v / 256 % 256) = v := by
  simp [readU16le]
  omega

/-- The §3 wire layout of an instruction frame with a correctly patched
length field (`stuffed_body_length + 3`), without the checksum: used to
state what `write_instruction` transmits. -/
def instrFrameCore (packetId instructionId : Nat) (params : List Nat) : List Nat :=
  HEADER_MAGIC ++ [packetId] ++ le16 ((stuff params).length + 3)
    ++ [instructionId] ++ stuff params

/-- A complete instruction frame: the core followed by the little-endian
checksum over the core (every byte from offset 0 through the end of the
stuffed body). -/
def mkInstrFrame (crc : List Nat → Nat) (packetId instructionId : Nat)
    (params : List Nat) : List Nat :=
  instrFrameCore packetId instructionId params
    ++ le16 (crc (instrFrameCore packetId instructionId params))

/-- Modelled from the spec: the generic decoder of an instruction frame
(§3 wire layout, §8 round-trip property).  This module only decodes status
frames; §8 pairs the encoder with "the inverse stuffing/unstuffing and
checksum functions" over the §3 layout: check the header magic, check that
the length field (which counts the instruction byte, the stuffed parameters
and the two checksum bytes) matches the frame length, verify the trailing
little-endian checksum, and unstuff the parameter bytes. -/
def decode_instruction (crc : List Nat → Nat) (msg : List Nat) :
    Option (Nat × Nat × List Nat) :=
  if msg.length < HEADER_SIZE + 2 then none
  else if ¬ HEADER_MAGIC.isPrefixOf msg then none
  else if msg.length ≠ 7 + readU16le (msg.getD 5 0) (msg.getD 6 0) then none
  else if readU16le (msg.getD (msg.length - 2) 0) (msg.getD (msg.length - 1) 0)
      ≠ crc (msg.take (msg.length - 2)) then none
  else some (msg.getD 4 0, msg.getD 7 0,
    unstuff ((msg.take (msg.length - 2)).drop HEADER_SIZE))

theorem instrFrameCore_length (packetId instructionId : Nat) (params : List Nat) :
    (instrFrameCore packetId instructionId params).length
      = HEADER_SIZE + (stuff params).length := by
  simp [instrFrameCore, le16, HEADER_MAGIC, HEADER_SIZE]
  omega

theorem instrFrameCore_cons (packetId instructionId : Nat) (params : List Nat) :
    instrFrameCore packetId instructionId params
      = 0xFF :: 0xFF :: 0xFD :: 0x00 :: packetId
        :: (((stuff params).length + 3) % 256)
        :: (((stuff params).length + 3) / 256 % 256)
        :: instructionId :: stuff params := by
  simp [instrFrameCore, le16, HEADER_MAGIC]

/-- `write_instruction` succeeds and transmits exactly the §3 frame when the
write buffer is large enough. -/
theorem write_instruction_sent (crc : List Nat → Nat) (writeCap : Nat)
    (packetId instructionId : Nat) (params : List Nat)
    (hCapRaw : HEADER_SIZE + params.length + 2 ≤ writeCap)
    (hCap : HEADER_SIZE + (stuff params).length + 2 ≤ writeCap)
    (hField : (stuff params).length + 3 < 65536) :
    write_instruction crc writeCap packetId instructionId params
      = .sent (mkInstrFrame crc packetId instructionId params) := by
  unfold write_instruction
  rw [if_neg (by omega), if_neg (by omega)]
  have hmod : ((stuff params).length % 65536 + 3) % 65536 = (stuff params).length + 3 := by
    omega
  rw [mkInstrFrame, instrFrameCore, hmod]
  simp [le16]

/-- Decoding a well-formed instruction frame recovers the packet id, the
instruction id and the raw parameters. -/
theorem decode_instruction_mkInstrFrame (crc : List Nat → Nat)
    (Hcrc : ∀ l, crc l < 65536) (packetId instructionId : Nat) (params : List Nat)
    (hField : (stuff params).length + 3 < 65536) :
    decode_instruction crc (mkInstrFrame crc packetId instructionId params)
      = some (packetId, instructionId, params) := by
  set n := (stuff params).length with hn
  set core := instrFrameCore packetId instructionId params with hcoredef
  have hcore_len : core.length = 8 + n := by
    rw [hcoredef, instrFrameCore_length]; rfl
  have hmsg : mkInstrFrame crc packetId instructionId params = core ++ le16 (crc core) := rfl
  have hmsg_len : (mkInstrFrame crc packetId instructionId params).length = 10 + n := by
    rw [hmsg]; simp [le16, hcore_len]; omega
  have htake : (mkInstrFrame crc packetId instructionId params).take
      ((mkInstrFrame crc packetId instructionId params).length - 2) = core := by
    rw [hmsg]
    have : (core ++ le16 (crc core)).length - 2 = core.length := by simp [le16]
    rw [this, List.take_left]
  have hgetD : ∀ i d, i < 8 + n →
      (mkInstrFrame crc packetId instructionId params).getD i d = core.getD i d := by
    intro i d hi
    rw [hmsg, List.getD_append _ _ _ _ (by omega)]
  have h4 : (mkInstrFrame crc packetId instructionId params).getD 4 0 = packetId := by
    rw [hgetD 4 0 (by omega), hcoredef, instrFrameCore_cons]; rfl
  have h5 : (mkInstrFrame crc packetId instructionId params).getD 5 0 = (n + 3) % 256 := by
    rw [hgetD 5 0 (by omega), hcoredef, instrFrameCore_cons]; rfl
  have h6 : (mkInstrFrame crc packetId instructionId params).getD 6 0 = (n + 3) / 256 % 256 := by
    rw [hgetD 6 0 (by omega), hcoredef, instrFrameCore_cons]; rfl
  have h7 : (mkInstrFrame crc packetId instructionId params).getD 7 0 = instructionId := by
    rw [hgetD 7 0 (by omega), hcoredef, instrFrameCore_cons]; rfl
  have hc0 : (mkInstrFrame crc packetId instructionId params).getD
      ((mkInstrFrame crc packetId instructionId params).length - 2) 0 = crc core % 256 := by
    rw [hmsg]
    have : (core ++ le16 (crc core)).length - 2 = core.length := by simp [le16]
    rw [this, List.getD_append_right _ _ _ _ (le_refl _)]
    simp [le16]
  have hc1 : (mkInstrFrame crc packetId instructionId params).getD
      ((mkInstrFrame crc packetId instructionId params).length - 1) 0 = crc core / 256 % 256 := by
    rw [hmsg]
    have : (core ++ le16 (crc core)).length - 1 = core.length + 1 := by simp [le16]
    rw [this, List.getD_append_right _ _ _ _ (by omega)]
    simp [le16]
  unfold decode_instruction
  rw [if_neg (by rw [hmsg_len]; simp [HEADER_SIZE])]
  rw [if_neg (by
    simp only [not_not]
    rw [hmsg, hcoredef, instrFrameCore_cons]
    simp [HEADER_MAGIC, List.isPrefixOf])]
  rw [if_neg (by
    rw [h5, h6, readU16le_le16 (n + 3) (by omega), hmsg_len]
    omega)]
  rw [if_neg (by
    rw [hc0, hc1, htake, readU16le_le16 (crc core) (Hcrc core)]
    simp)]
  rw [h4, h7, htake]
  have hdrop : core.drop HEADER_SIZE = stuff params := by
    rw [hcoredef, instrFrameCore_cons]; rfl
  rw [hdrop, unstuff_stuff]

/-- **C1.** Encoding an instruction with header magic `FF FF FD 00`, packet
id `0x01`, instruction `0x03` and zero parameters produces exactly the
frame `FF FF FD 00 01 03 00 03` followed by the two little-endian checksum
bytes; in general, for every parameter list, `write_instruction` patches
the length field with `stuffed_body_length + 3` (the length field inside
`instrFrameCore`) and appends the little-endian checksum computed over all
bytes from offset 0 through the end of the stuffed body, so that decoding
the produced frame recovers the original packet id, instruction id and
parameter bytes exactly. -/
theorem c1_encode_round_trip (crc : List Nat → Nat) (Hcrc : ∀ l, crc l < 65536)
    (packetId instructionId : Nat) (params : List Nat) (writeCap : Nat)
    (hCapRaw : HEADER_SIZE + params.length + 2 ≤ writeCap)
    (hCap : HEADER_SIZE + (stuff params).length + 2 ≤ writeCap)
    (hField : (stuff params).length + 3 < 65536) :
    write_instruction crc writeCap packetId instructionId params
        = .sent (instrFrameCore packetId instructionId params
            ++ le16 (crc (instrFrameCore packetId instructionId params)))
    ∧ decode_instruction crc (mkInstrFrame crc packetId instructionId params)
        = some (packetId, instructionId, params)
    ∧ write_instruction crc 128 1 3 []
        = .sent ([0xFF, 0xFF, 0xFD, 0x00, 0x01, 0x03, 0x00, 0x03]
            ++ le16 (crc [0xFF, 0xFF, 0xFD, 0x00, 0x01, 0x03, 0x00, 0x03]))
    ∧ decode_instruction crc ([0xFF, 0xFF, 0xFD, 0x00, 0x01, 0x03, 0x00, 0x03]
            ++ le16 (crc [0xFF, 0xFF, 0xFD, 0x00, 0x01, 0x03, 0x00, 0x03]))
        = some (1, 3, []) := by
  have hcore0 : instrFrameCore 1 3 [] = [0xFF, 0xFF, 0xFD, 0x00, 0x01, 0x03, 0x00, 0x03] := by
    decide
  have hmk0 : mkInstrFrame crc 1 3 []
      = [0xFF, 0xFF, 0xFD, 0x00, 0x01, 0x03, 0x00, 0x03]
        ++ le16 (crc [0xFF, 0xFF, 0xFD, 0x00, 0x01, 0x03, 0x00, 0x03]) := by
    rw [mkInstrFrame, hcore0]
  refine ⟨write_instruction_sent crc writeCap packetId instructionId params hCapRaw hCap hField,
    decode_instruction_mkInstrFrame crc Hcrc packetId instructionId params hField, ?_, ?_⟩
  · have h := write_instruction_sent crc 128 1 3 [] (by decide) (by decide) (by decide)
    rw [h, hmk0]
  · have h := decode_instruction_mkInstrFrame crc Hcrc 1 3 [] (by decide)
    rw [hmk0] at h
    exact h

/-- Witness for **C1**: the concrete scenario evaluated at a concrete
checksum function. -/
theorem c1_encode_round_trip_witness :
    write_instruction (fun l => l.sum % 65536) 128 1 3 []
        = .sent ([0xFF, 0xFF, 0xFD, 0x00, 0x01, 0x03, 0x00, 0x03]
            ++ le16 ((0xFF + (0xFF + (0xFD + (0x00 + (0x01 + (0x03 + (0x00 + (0x03 + 0)))))))) % 65536))
    ∧ decode_instruction (fun l => l.sum % 65536)
        ([0xFF, 0xFF, 0xFD, 0x00, 0x01, 0x03, 0x00, 0x03]
            ++ le16 ((0xFF + (0xFF + (0xFD + (0x00 + (0x01 + (0x03 + (0x00 + (0x03 + 0)))))))) % 65536))
        = some (1, 3, []) := by
  have h := c1_encode_round_trip (fun l => l.sum % 65536)
      (fun l => Nat.mod_lt _ (by omega)) 1 3 [] 128 (by decide) (by decide) (by decide)
  exact ⟨h.2.2.1, h.2.2.2⟩

/-- **C9.** `write_instruction` sets the buffered inbound valid length to
zero as its first step (line 104 of the source), before the write-capacity
check, before encoding and before anything is transmitted: on every
invocation — including the ones whose outcome is a failure — the resulting
read-side state is the input state with `readLen = 0` and the read buffer
bytes untouched. -/
theorem c9_write_discards_inbound (crc : List Nat → Nat) (writeCap : Nat)
    (st : BusState) (packetId instructionId : Nat) (params : List Nat) :
    (write_instruction_state crc writeCap st packetId instructionId params).1.readLen = 0
    ∧ (write_instruction_state crc writeCap st packetId instructionId params).1.buf = st.buf
    ∧ ((write_instruction_state crc writeCap st packetId instructionId params).2
        = .panicBufferTooSmall →
      (write_instruction_state crc writeCap st packetId instructionId params).1.readLen = 0) := by
  unfold write_instruction_state
  split
  · exact ⟨rfl, rfl, fun _ => rfl⟩
  · split
    · exact ⟨rfl, rfl, fun _ => rfl⟩
    · exact ⟨rfl, rfl, fun _ => rfl⟩

/-- Witness for **C9**: a bus with three buffered bytes loses them on a
write invocation that fails its capacity check (write capacity 0), and on a
successful one. -/
theorem c9_write_discards_inbound_witness :
    (write_instruction_state (fun _ => 0) 0 ⟨[9, 9, 9], 3⟩ 1 2 []).1.readLen = 0
    ∧ (write_instruction_state (fun _ => 0) 128 ⟨[9, 9, 9], 3⟩ 1 2 []).1.readLen = 0 := by
  exact ⟨(c9_write_discards_inbound (fun _ => 0) 0 ⟨[9, 9, 9], 3⟩ 1 2 []).1,
    (c9_write_discards_inbound (fun _ => 0) 128 ⟨[9, 9, 9], 3⟩ 1 2 []).1⟩

/-- The buffer bookkeeping invariant (§3): the physical buffer length (the
capacity) never changes and the valid length never exceeds it.  Because the
valid bytes are by construction `buf.take readLen`, they are left-aligned
at offset 0 with no gaps. -/
def WF (cap : Nat) (st : BusState) : Prop :=
  st.buf.length = cap ∧ st.readLen ≤ cap

theorem WF_consume (cap : Nat) (st : BusState) (len : Nat)
    (hwf : WF cap st) (hle : len ≤ st.readLen) :
    WF cap (consume_read_bytes st len) := by
  obtain ⟨h1, h2⟩ := hwf
  constructor
  · rw [buf_length_consume st len hle (by omega), h1]
  · simp [consume_read_bytes]
    omega

theorem WF_remove_garbage (cap : Nat) (st : BusState) (hwf : WF cap st) :
    WF cap (remove_garbage st) := by
  apply WF_consume cap st _ hwf
  calc find_header (validRegion st) ≤ (validRegion st).length := find_header_le_length _
    _ ≤ st.readLen := by simp [validRegion]

theorem WF_appendChunk (cap : Nat) (st : BusState) (chunk : List Nat) (hwf : WF cap st) :
    WF cap (appendChunk st chunk) := by
  obtain ⟨h1, h2⟩ := hwf
  constructor
  · rw [appendChunk_buf_length st chunk (by omega), h1]
  · rw [appendChunk_readLen]
    omega

theorem ReadOutcome.stateOf_finish_WF (crc : List Nat → Nat) (cap stuffedLen : Nat)
    (st : BusState) (hwf : WF cap st) (hle : stuffedLen ≤ st.readLen)
    (h9 : STATUS_HEADER_SIZE ≤ stuffedLen) :
    WF cap (finish_status_frame crc stuffedLen st).stateOf
    ∧ ∀ pid err prms L st',
        finish_status_frame crc stuffedLen st = .response pid err prms L st' →
        L ≤ st'.readLen := by
  obtain ⟨h1, h2⟩ := hwf
  unfold finish_status_frame
  simp only []
  split
  · exact ⟨WF_consume cap st stuffedLen ⟨h1, h2⟩ hle, by intro _ _ _ _ _ h; cases h⟩
  · have hk : (unstuff ((st.buf.take (stuffedLen - 2)).drop STATUS_HEADER_SIZE)).length
        ≤ stuffedLen - 2 - STATUS_HEADER_SIZE := by
      calc (unstuff ((st.buf.take (stuffedLen - 2)).drop STATUS_HEADER_SIZE)).length
          ≤ ((st.buf.take (stuffedLen - 2)).drop STATUS_HEADER_SIZE).length :=
            unstuff_length_le _
        _ ≤ stuffedLen - 2 - STATUS_HEADER_SIZE := by
            simp [STATUS_HEADER_SIZE]
            omega
    have hcap9 : STATUS_HEADER_SIZE ≤ cap := by
      simp [STATUS_HEADER_SIZE] at h9 ⊢
      omega
    have hwf' : WF cap
        ⟨st.buf.take STATUS_HEADER_SIZE
          ++ unstuff ((st.buf.take (stuffedLen - 2)).drop STATUS_HEADER_SIZE)
          ++ st.buf.drop (STATUS_HEADER_SIZE
              + (unstuff ((st.buf.take (stuffedLen - 2)).drop STATUS_HEADER_SIZE)).length),
          st.readLen⟩ := by
      constructor
      · simp [STATUS_HEADER_SIZE] at hk h9 hcap9 ⊢
        omega
      · simpa using h2
    split
    · exact ⟨WF_consume cap _ stuffedLen hwf' (by simpa using hle),
        by intro _ _ _ _ _ h; cases h⟩
    · split
      · exact ⟨WF_consume cap _ stuffedLen hwf' (by simpa using hle),
          by intro _ _ _ _ _ h; cases h⟩
      · refine ⟨hwf', ?_⟩
        intro pid err prms L st' h
        cases h
        simpa using hle

theorem finish_status_frame_ne_timeout (crc : List Nat → Nat) (stuffedLen : Nat)
    (st st' : BusState) : finish_status_frame crc stuffedLen st ≠ .timeout st' := by
  unfold finish_status_frame
  simp only []
  split
  · intro h; cases h
  · split
    · intro h; cases h
    · split
      · intro h; cases h
      · intro h; cases h

theorem finish_status_frame_ne_fuelOut (crc : List Nat → Nat) (stuffedLen : Nat)
    (st st' : BusState) : finish_status_frame crc stuffedLen st ≠ .fuelOut st' := by
  unfold finish_status_frame
  simp only []
  split
  · intro h; cases h
  · split
    · intro h; cases h
    · split
      · intro h; cases h
      · intro h; cases h

/-- One buffering step of the polling loop: append the bytes of one
transport read and remove leading garbage.  The timeout error leaves behind
a state reachable from the entry state by such steps only — partially
received bytes are kept, never reset. -/
def bufStep (st st' : BusState) : Prop :=
  ∃ chunk, st' = remove_garbage (appendChunk st chunk)

theorem remove_garbage_of_magic_start (st : BusState)
    (h : HEADER_MAGIC.isPrefixOf (validRegion st) = true) :
    remove_garbage st = st := by
  unfold remove_garbage
  rw [find_header_eq_zero_of_frag _
    (magicFragAt_of_magic_start _ (List.isPrefixOf_iff_prefix.mp h))]
  exact consume_read_bytes_zero st

/-- The loop preserves the buffer invariant on every exit, and a successful
response never claims more stuffed bytes than are buffered. -/
theorem WF_readLoop (crc : List Nat → Nat) (cap deadline : Nat) :
    ∀ (events : List (Nat × List Nat)) (st : BusState), WF cap st →
      WF cap (readLoop crc deadline events st).stateOf
      ∧ ∀ pid err prms L st',
          readLoop crc deadline events st = .response pid err prms L st' → L ≤ st'.readLen
  | [], st, hwf => ⟨hwf, by intro _ _ _ _ _ h; cases h⟩
  | (now, chunk) :: rest, st, hwf => by
    have hwf2 : WF cap (remove_garbage (appendChunk st chunk)) :=
      WF_remove_garbage cap _ (WF_appendChunk cap st chunk hwf)
    rw [readLoop]
    split
    · exact ⟨hwf, by intro _ _ _ _ _ h; cases h⟩
    · split
      · exact WF_readLoop crc cap deadline rest st hwf
      · simp only []
        split
        · exact WF_readLoop crc cap deadline rest _ hwf2
        · split
          · exact WF_readLoop crc cap deadline rest _ hwf2
          · split
            · exact ⟨hwf2, by intro _ _ _ _ _ h; cases h⟩
            · split
              · next hbreak =>
                exact ReadOutcome.stateOf_finish_WF crc cap _ _ hwf2 hbreak
                  (by omega)
              · exact WF_readLoop crc cap deadline rest _ hwf2

/-- **C5.** If the wall-clock deadline elapses before a complete valid
status frame is buffered, the read fails with a timeout error and the
partially received bytes stay buffered: (1) a transport read returning zero
bytes before the deadline is pure retry — same state, same deadline; (2) a
run of zero-byte reads with some poll past the deadline terminates with a
timeout that leaves the state untouched (the valid length is not reset);
(3) every timeout outcome leaves a state reachable from the entry state by
buffering steps only (append one read's bytes, then remove leading
garbage) — never by discarding buffered frame data. -/
theorem c5_timeout_keeps_partial_bytes (crc : List Nat → Nat) (deadline : Nat) :
    (∀ (t : Nat) (rest : List (Nat × List Nat)) (st : BusState), ¬ deadline < t →
      readLoop crc deadline ((t, []) :: rest) st = readLoop crc deadline rest st)
    ∧ (∀ (events : List (Nat × List Nat)) (st : BusState),
        (∀ e ∈ events, e.2 = ([] : List Nat)) → (∃ e ∈ events, deadline < e.1) →
        readLoop crc deadline events st = .timeout st)
    ∧ (∀ (events : List (Nat × List Nat)) (st st' : BusState),
        readLoop crc deadline events st = .timeout st' →
        Relation.ReflTransGen bufStep st st') := by
  refine ⟨?_, ?_, ?_⟩
  · intro t rest st ht
    rw [readLoop, if_neg ht, if_pos (by simp)]
  · intro events
    induction events with
    | nil => intro st _ h; simp at h
    | cons e rest ih =>
      intro st hempty hlate
      obtain ⟨now, chunk⟩ := e
      have hc : chunk = [] := hempty (now, chunk) (by simp)
      subst hc
      rw [readLoop]
      by_cases hnow : deadline < now
      · rw [if_pos hnow]
      · rw [if_neg hnow, if_pos (by simp)]
        apply ih
        · intro e he; exact hempty e (by simp [he])
        · rcases hlate with ⟨e, he, hlt⟩
          rcases List.mem_cons.mp he with rfl | hmem
          · exact absurd hlt hnow
          · exact ⟨e, hmem, hlt⟩
  · intro events
    induction events with
    | nil =>
      intro st st' h
      rw [readLoop] at h
      cases h
    | cons e rest ih =>
      intro st st' h
      obtain ⟨now, chunk⟩ := e
      rw [readLoop] at h
      by_cases hnow : deadline < now
      · rw [if_pos hnow] at h
        cases h
        exact Relation.ReflTransGen.refl
      · rw [if_neg hnow] at h
        by_cases hz : (chunk.take (st.buf.length - st.readLen)).length = 0
        · rw [if_pos hz] at h
          exact ih st st' h
        · rw [if_neg hz] at h
          simp only [] at h
          have hstep : bufStep st (remove_garbage (appendChunk st chunk)) := ⟨chunk, rfl⟩
          split at h
          · exact Relation.ReflTransGen.head hstep (ih _ _ h)
          · split at h
            · exact Relation.ReflTransGen.head hstep (ih _ _ h)
            · split at h
              · cases h
              · split at h
                · exact absurd h (finish_status_frame_ne_timeout _ _ _ _)
                · exact Relation.ReflTransGen.head hstep (ih _ _ h)

/-- Witness for **C5**: two zero-byte polls, the second past the deadline,
time out and leave the (empty) buffered state untouched. -/
theorem c5_timeout_keeps_partial_bytes_witness :
    readLoop (fun _ => 0) 5 [(0, []), (9, [])] ⟨[0, 0], 0⟩ = .timeout ⟨[0, 0], 0⟩ :=
  (c5_timeout_keeps_partial_bytes (fun _ => 0) 5).2.1 [(0, []), (9, [])] ⟨[0, 0], 0⟩
    (by decide) (by decide)

/-- **C6** (evaluating the defect).  `read_status_response` is not total: a
fully delivered, structurally plausible 9-byte status frame whose wire
length field is 0 drives the `body_len - 2` subtraction (line 164 of the
source) into `usize` underflow — an arithmetic-overflow panic in debug
builds, a wrap to an enormous expected length in release builds — instead
of returning an error. -/
theorem c6_len_field_underflow :
    read_status_response (fun _ => 0) 10
        [(0, [0xFF, 0xFF, 0xFD, 0x00, 0x01, 0x00, 0x00, 0x55, 0x00])]
        ⟨List.replicate 16 0, 0⟩
      = .panicLenUnderflow
          ⟨[0xFF, 0xFF, 0xFD, 0x00, 0x01, 0x00, 0x00, 0x55, 0x00] ++ List.replicate 7 0, 9⟩ := by
  rfl

theorem magic_start_appendChunk (st : BusState) (chunk : List Nat)
    (h : st.readLen ≤ st.buf.length)
    (hpref : HEADER_MAGIC.isPrefixOf (validRegion st) = true) :
    HEADER_MAGIC.isPrefixOf (validRegion (appendChunk st chunk)) = true := by
  rw [validRegion_appendChunk st chunk h]
  rw [List.isPrefixOf_iff_prefix] at hpref ⊢
  exact hpref.trans (List.prefix_append _ _)

theorem getD_validRegion_appendChunk (st : BusState) (chunk : List Nat) (i : Nat)
    (h : st.readLen ≤ st.buf.length) (hi : i < st.readLen) :
    (validRegion (appendChunk st chunk)).getD i 0 = (validRegion st).getD i 0 := by
  rw [validRegion_appendChunk st chunk h]
  exact List.getD_append _ _ _ _ (by simp [validRegion]; omega)

/-- **C7** (amended).  A buffered status frame whose declared length field
implies a stuffed frame length `7 + field` larger than the read buffer's
total capacity makes `read_status_response` keep polling — the completion
test can never pass, and with the buffer head pinned by the header magic
the declared length never changes — until the first poll past the deadline,
which fails with a timeout error.  The source has no buffer-too-small
condition; the loop terminates, but only through the timeout. -/
theorem c7_oversized_frame_times_out (crc : List Nat → Nat) (deadline cap : Nat) :
    ∀ (events : List (Nat × List Nat)) (st : BusState),
      st.buf.length = cap → st.readLen ≤ cap → STATUS_HEADER_SIZE ≤ st.readLen →
      HEADER_MAGIC.isPrefixOf (validRegion st) = true →
      2 ≤ (validRegion st).getD 5 0 + (validRegion st).getD 6 0 * 256 →
      cap < 7 + ((validRegion st).getD 5 0 + (validRegion st).getD 6 0 * 256) →
      (∃ e ∈ events, deadline < e.1) →
      ∃ st', readLoop crc deadline events st = .timeout st'
  | [], st, _, _, _, _, _, _, hex => by simp at hex
  | (now, chunk) :: rest, st, h1, h2, h3, h4, h5, h6, hex => by
    have hshs : STATUS_HEADER_SIZE = 9 := rfl
    rw [readLoop]
    by_cases hnow : deadline < now
    · rw [if_pos hnow]; exact ⟨st, rfl⟩
    · rw [if_neg hnow]
      have hex' : ∃ e ∈ rest, deadline < e.1 := by
        rcases hex with ⟨e, he, hlt⟩
        rcases List.mem_cons.mp he with rfl | hmem
        · exact absurd hlt hnow
        · exact ⟨e, hmem, hlt⟩
      by_cases hz : (chunk.take (st.buf.length - st.readLen)).length = 0
      · rw [if_pos hz]
        exact c7_oversized_frame_times_out crc deadline cap rest st h1 h2 h3 h4 h5 h6 hex'
      · rw [if_neg hz]
        simp only []
        have h9le : st.readLen ≤ st.buf.length := by omega
        have hpref1 : HEADER_MAGIC.isPrefixOf (validRegion (appendChunk st chunk)) = true :=
          magic_start_appendChunk st chunk h9le h4
        have hrg : remove_garbage (appendChunk st chunk) = appendChunk st chunk :=
          remove_garbage_of_magic_start _ hpref1
        rw [hrg]
        have hsz : STATUS_HEADER_SIZE ≤ (appendChunk st chunk).readLen := by
          rw [appendChunk_readLen]; omega
        have hrlle : (appendChunk st chunk).readLen ≤ cap := by
          rw [appendChunk_readLen]; omega
        have hbl : (appendChunk st chunk).buf.length = cap := by
          rw [appendChunk_buf_length st chunk h9le, h1]
        have h5' : (validRegion (appendChunk st chunk)).getD 5 0 = (validRegion st).getD 5 0 :=
          getD_validRegion_appendChunk st chunk 5 h9le (by omega)
        have h6' : (validRegion (appendChunk st chunk)).getD 6 0 = (validRegion st).getD 6 0 :=
          getD_validRegion_appendChunk st chunk 6 h9le (by omega)
        rw [if_neg (not_not_intro hpref1)]
        rw [if_neg (by omega : ¬ (appendChunk st chunk).readLen < STATUS_HEADER_SIZE)]
        rw [h5', h6']
        rw [if_neg (by
          omega : ¬ ((validRegion st).getD 5 0 + (validRegion st).getD 6 0 * 256 < 2))]
        rw [if_neg (by
          omega : ¬ (STATUS_HEADER_SIZE
            + ((validRegion st).getD 5 0 + (validRegion st).getD 6 0 * 256 - 2)
            ≤ (appendChunk st chunk).readLen))]
        exact c7_oversized_frame_times_out crc deadline cap rest (appendChunk st chunk)
          hbl hrlle hsz hpref1 (by rw [h5', h6']; exact h5) (by rw [h5', h6']; exact h6) hex'

/-- **C7** (refuting the claimed buffer-too-small fault).  With a 16-byte
read buffer and a buffered frame declaring a length field of `0x64` (so a
107-byte stuffed frame that can never fit), the call returns the plain
timeout error — the source has no buffer-too-small framing fault; it polls
until the deadline passes. -/
theorem c7_oversized_frame_no_fault_concrete :
    read_status_response (fun _ => 0) 4
        [(0, [0xFF, 0xFF, 0xFD, 0x00, 0x01, 0x64, 0x00, 0x55, 0x00]), (5, [])]
        ⟨List.replicate 16 0, 0⟩
      = .timeout
          ⟨[0xFF, 0xFF, 0xFD, 0x00, 0x01, 0x64, 0x00, 0x55, 0x00] ++ List.replicate 7 0, 9⟩ := by
  rfl

/-- Witness for **C7** (amended): a concrete oversized frame head polls and
times out. -/
theorem c7_oversized_frame_times_out_witness :
    ∃ st', readLoop (fun _ => 0) 4 [(5, [])]
        ⟨[0xFF, 0xFF, 0xFD, 0x00, 0x01, 0x64, 0x00, 0x55, 0x00] ++ List.replicate 7 0, 9⟩
      = .timeout st' :=
  c7_oversized_frame_times_out (fun _ => 0) 4 16 [(5, [])]
    ⟨[0xFF, 0xFF, 0xFD, 0x00, 0x01, 0x64, 0x00, 0x55, 0x00] ++ List.replicate 7 0, 9⟩
    (by decide) (by decide) (by decide) (by decide) (by decide) (by decide) (by decide)

theorem consume_head (A B tail : List Nat) :
    consume_read_bytes ⟨A ++ (B ++ tail), A.length + B.length⟩ A.length
      = ⟨B ++ (A ++ (B ++ tail)).drop B.length, B.length⟩ := by
  unfold consume_read_bytes copyWithin
  simp only [BusState.mk.injEq]
  constructor
  · rw [show A.length + B.length - A.length = B.length from by omega]
    rw [List.drop_left, List.take_left]
  · omega


theorem appendChunk_fresh (cap : Nat) (chunk : List Nat) (h : chunk.length ≤ cap) :
    appendChunk ⟨List.replicate cap 0, 0⟩ chunk
      = ⟨chunk ++ List.replicate (cap - chunk.length) 0, chunk.length⟩ := by
  unfold appendChunk
  dsimp only
  rw [List.length_replicate, Nat.sub_zero, List.take_of_length_le h]
  simp [List.drop_replicate]

/-- Master completion lemma: on a fresh bus, one transport read delivering
garbage `G` (containing no header-magic occurrence), a structurally
complete status frame `F` and trailing bytes `R` makes the polling loop
discard exactly `G.length` bytes and hand the frame — with `R` and the
stale buffer tail behind it — to the post-loop frame validation. -/
theorem readLoop_completes_frame (crc : List Nat → Nat) (deadline t : Nat)
    (rest : List (Nat × List Nat)) (cap : Nat) (G R F : List Nat)
    (pid ins err c0 c1 : Nat) (sp : List Nat)
    (hF : F = [0xFF, 0xFF, 0xFD, 0x00, pid, (sp.length + 4) % 256,
        (sp.length + 4) / 256 % 256, ins, err] ++ sp ++ [c0, c1])
    (hG : ∀ i, i + 4 ≤ G.length → ¬ HEADER_MAGIC <+: G.drop i)
    (ht : ¬ deadline < t)
    (hfield : sp.length + 4 < 65536)
    (hcap : G.length + F.length + R.length ≤ cap) :
    ∃ tail : List Nat,
      ((F ++ R) ++ tail).length = cap
      ∧ readLoop crc deadline ((t, G ++ F ++ R) :: rest) ⟨List.replicate cap 0, 0⟩
        = finish_status_frame crc (11 + sp.length) ⟨(F ++ R) ++ tail, (F ++ R).length⟩ := by
  have hshs : STATUS_HEADER_SIZE = 9 := rfl
  have hFlen : F.length = 11 + sp.length := by
    rw [hF]; simp; omega
  have hFpref : HEADER_MAGIC <+: F := by
    rw [hF]
    exact ⟨[pid, (sp.length + 4) % 256, (sp.length + 4) / 256 % 256, ins, err] ++ sp ++ [c0, c1],
      by simp [HEADER_MAGIC]⟩
  have hfind : find_header (G ++ (F ++ R)) = G.length :=
    find_header_append_magic G (F ++ R) (hFpref.trans (List.prefix_append F R)) hG
  have happ := appendChunk_fresh cap (G ++ F ++ R) (by simp; omega)
  have hshape : (G ++ F ++ R) ++ List.replicate (cap - (G ++ F ++ R).length) 0
      = G ++ ((F ++ R) ++ List.replicate (cap - (G ++ F ++ R).length) 0) := by simp
  have hlen2 : (G ++ F ++ R).length = G.length + (F ++ R).length := by simp
  rw [hshape, hlen2] at happ
  have hrg2 : remove_garbage ⟨G ++ ((F ++ R)
        ++ List.replicate (cap - (G.length + (F ++ R).length)) 0),
        G.length + (F ++ R).length⟩
      = ⟨(F ++ R) ++ (G ++ ((F ++ R)
          ++ List.replicate (cap - (G.length + (F ++ R).length)) 0)).drop (F ++ R).length,
          (F ++ R).length⟩ := by
    unfold remove_garbage
    have hvr : validRegion ⟨G ++ ((F ++ R)
          ++ List.replicate (cap - (G.length + (F ++ R).length)) 0),
          G.length + (F ++ R).length⟩ = G ++ (F ++ R) := by
      unfold validRegion
      dsimp only
      rw [show G ++ ((F ++ R) ++ List.replicate (cap - (G.length + (F ++ R).length)) 0)
          = (G ++ (F ++ R)) ++ List.replicate (cap - (G.length + (F ++ R).length)) 0
          from by simp]
      rw [show G.length + (F ++ R).length = (G ++ (F ++ R)).length from by simp]
      exact List.take_left _ _
    rw [hvr, hfind]
    exact consume_head G (F ++ R) _
  have hg5 : (F ++ R).getD 5 0 = (sp.length + 4) % 256 := by rw [hF]; rfl
  have hg6 : (F ++ R).getD 6 0 = (sp.length + 4) / 256 % 256 := by rw [hF]; rfl
  have hpref2 : HEADER_MAGIC.isPrefixOf (F ++ R) = true :=
    List.isPrefixOf_iff_prefix.mpr (hFpref.trans (List.prefix_append F R))
  refine ⟨(G ++ ((F ++ R) ++ List.replicate (cap - (G.length + (F ++ R).length)) 0)).drop
      (F ++ R).length, ?_, ?_⟩
  · simp
    omega
  · rw [readLoop, if_neg ht]
    rw [if_neg (by
      dsimp only
      simp only [List.length_take, List.length_replicate, List.length_append, Nat.sub_zero]
      omega)]
    simp only []
    rw [happ, hrg2]
    have hvr2 : validRegion ⟨(F ++ R) ++ (G ++ ((F ++ R)
          ++ List.replicate (cap - (G.length + (F ++ R).length)) 0)).drop (F ++ R).length,
          (F ++ R).length⟩ = F ++ R := by
      unfold validRegion
      dsimp only
      exact List.take_left _ _
    rw [hvr2]
    rw [if_neg (not_not_intro hpref2)]
    rw [if_neg (by
      show ¬ (F ++ R).length < STATUS_HEADER_SIZE
      simp only [List.length_append]
      omega)]
    rw [hg5, hg6]
    rw [if_neg (by omega : ¬ (sp.length + 4) % 256 + (sp.length + 4) / 256 % 256 * 256 < 2)]
    rw [if_pos (by
      show STATUS_HEADER_SIZE + ((sp.length + 4) % 256 + (sp.length + 4) / 256 % 256 * 256 - 2)
        ≤ (F ++ R).length
      simp only [List.length_append]
      omega)]
    rw [show STATUS_HEADER_SIZE
        + ((sp.length + 4) % 256 + (sp.length + 4) / 256 % 256 * 256 - 2)
        = 11 + sp.length from by omega]

theorem getD_nine_front (a0 a1 a2 a3 a4 a5 a6 a7 a8 : Nat) (X Y : List Nat) (i : Nat)
    (hi : i < 9) :
    (([a0, a1, a2, a3, a4, a5, a6, a7, a8] ++ X) ++ Y).getD i 0
      = [a0, a1, a2, a3, a4, a5, a6, a7, a8].getD i 0 := by
  rw [List.getD_append _ _ _ _ (by simp; omega), List.getD_append _ _ _ _ (by simp; omega)]

/-- Post-loop validation of a buffered frame whose trailing checksum does
not match the checksum of the preceding bytes: the outcome is the
checksum-mismatch error, with exactly the frame's stuffed bytes consumed
from the buffer. -/
theorem finish_status_frame_bad (crc : List Nat → Nat)
    (m0 m1 m2 m3 pid lo hi ins err c0 c1 : Nat) (sp Q : List Nat) (rl : Nat)
    (hbad : readU16le c0 c1 ≠ crc ([m0, m1, m2, m3, pid, lo, hi, ins, err] ++ sp)) :
    finish_status_frame crc (11 + sp.length)
        ⟨([m0, m1, m2, m3, pid, lo, hi, ins, err] ++ sp) ++ ([c0, c1] ++ Q), rl⟩
      = .invalidChecksum (readU16le c0 c1)
          (crc ([m0, m1, m2, m3, pid, lo, hi, ins, err] ++ sp))
          (consume_read_bytes
            ⟨([m0, m1, m2, m3, pid, lo, hi, ins, err] ++ sp) ++ ([c0, c1] ++ Q), rl⟩
            (11 + sp.length)) := by
  have hsub0 : 11 + sp.length - 2
      - ([m0, m1, m2, m3, pid, lo, hi, ins, err] ++ sp).length = 0 := by
    simp; omega
  have hsub1 : 11 + sp.length - 2 + 1
      - ([m0, m1, m2, m3, pid, lo, hi, ins, err] ++ sp).length = 1 := by
    simp; omega
  have hA : (([m0, m1, m2, m3, pid, lo, hi, ins, err] ++ sp) ++ ([c0, c1] ++ Q)).getD
      (11 + sp.length - 2) 0 = c0 := by
    rw [List.getD_append_right _ _ _ _ (by simp; omega), hsub0]
    rfl
  have hB : (([m0, m1, m2, m3, pid, lo, hi, ins, err] ++ sp) ++ ([c0, c1] ++ Q)).getD
      (11 + sp.length - 2 + 1) 0 = c1 := by
    rw [List.getD_append_right _ _ _ _ (by simp; omega), hsub1]
    rfl
  have hC : (([m0, m1, m2, m3, pid, lo, hi, ins, err] ++ sp) ++ ([c0, c1] ++ Q)).take
      (11 + sp.length - 2) = [m0, m1, m2, m3, pid, lo, hi, ins, err] ++ sp := by
    rw [show 11 + sp.length - 2 = ([m0, m1, m2, m3, pid, lo, hi, ins, err] ++ sp).length
      from (by simp; omega)]
    exact List.take_left _ _
  unfold finish_status_frame
  simp only []
  rw [hA, hB, hC, if_pos hbad]

/-- Post-loop validation of a well-formed buffered status frame (status
marker, zero error code, matching checksum): the outcome is a `Response`
carrying the packet id, the unstuffed parameters and the stuffed frame
length, over the in-place-unstuffed buffer, with nothing consumed yet. -/
theorem finish_status_frame_ok (crc : List Nat → Nat)
    (m0 m1 m2 m3 pid lo hi c0 c1 : Nat) (sp Q : List Nat) (rl : Nat)
    (hgood : readU16le c0 c1 = crc ([m0, m1, m2, m3, pid, lo, hi, STATUS_ID, 0] ++ sp)) :
    finish_status_frame crc (11 + sp.length)
        ⟨([m0, m1, m2, m3, pid, lo, hi, STATUS_ID, 0] ++ sp) ++ ([c0, c1] ++ Q), rl⟩
      = .response pid 0 (unstuff sp) (11 + sp.length)
          ⟨([m0, m1, m2, m3, pid, lo, hi, STATUS_ID, 0] ++ unstuff sp)
            ++ ((([m0, m1, m2, m3, pid, lo, hi, STATUS_ID, 0] ++ sp) ++ ([c0, c1] ++ Q)).drop
                (STATUS_HEADER_SIZE + (unstuff sp).length)), rl⟩ := by
  have hsub0 : 11 + sp.length - 2
      - ([m0, m1, m2, m3, pid, lo, hi, STATUS_ID, 0] ++ sp).length = 0 := by
    simp; omega
  have hsub1 : 11 + sp.length - 2 + 1
      - ([m0, m1, m2, m3, pid, lo, hi, STATUS_ID, 0] ++ sp).length = 1 := by
    simp; omega
  have hA : (([m0, m1, m2, m3, pid, lo, hi, STATUS_ID, 0] ++ sp) ++ ([c0, c1] ++ Q)).getD
      (11 + sp.length - 2) 0 = c0 := by
    rw [List.getD_append_right _ _ _ _ (by simp; omega), hsub0]
    rfl
  have hB : (([m0, m1, m2, m3, pid, lo, hi, STATUS_ID, 0] ++ sp) ++ ([c0, c1] ++ Q)).getD
      (11 + sp.length - 2 + 1) 0 = c1 := by
    rw [List.getD_append_right _ _ _ _ (by simp; omega), hsub1]
    rfl
  have hC : (([m0, m1, m2, m3, pid, lo, hi, STATUS_ID, 0] ++ sp) ++ ([c0, c1] ++ Q)).take
      (11 + sp.length - 2) = [m0, m1, m2, m3, pid, lo, hi, STATUS_ID, 0] ++ sp := by
    rw [show 11 + sp.length - 2 = ([m0, m1, m2, m3, pid, lo, hi, STATUS_ID, 0] ++ sp).length
      from (by simp; omega)]
    exact List.take_left _ _
  have hT9 : (([m0, m1, m2, m3, pid, lo, hi, STATUS_ID, 0] ++ sp) ++ ([c0, c1] ++ Q)).take
      STATUS_HEADER_SIZE = [m0, m1, m2, m3, pid, lo, hi, STATUS_ID, 0] := rfl
  have hD9 : ([m0, m1, m2, m3, pid, lo, hi, STATUS_ID, 0] ++ sp).drop STATUS_HEADER_SIZE
      = sp := rfl
  have h7v : ([m0, m1, m2, m3, pid, lo, hi, STATUS_ID, 0] : List Nat).getD 7 0 = STATUS_ID := rfl
  have h8v : ([m0, m1, m2, m3, pid, lo, hi, STATUS_ID, 0] : List Nat).getD 8 0 = 0 := rfl
  have h4v : ([m0, m1, m2, m3, pid, lo, hi, STATUS_ID, 0] : List Nat).getD 4 0 = pid := rfl
  unfold finish_status_frame
  simp only []
  rw [hA, hB, hC, if_neg (not_not_intro hgood), hT9, hD9]
  rw [getD_nine_front m0 m1 m2 m3 pid lo hi STATUS_ID 0 (unstuff sp) _ 7 (by omega), h7v]
  rw [if_neg (not_not_intro rfl)]
  rw [getD_nine_front m0 m1 m2 m3 pid lo hi STATUS_ID 0 (unstuff sp) _ 8 (by omega), h8v]
  rw [if_neg (not_not_intro rfl)]
  rw [getD_nine_front m0 m1 m2 m3 pid lo hi STATUS_ID 0 (unstuff sp) _ 4 (by omega), h4v]

/-- **C3.** When a structurally complete status frame is buffered but its
trailing 16-bit checksum does not equal the checksum freshly computed over
all preceding bytes, `read_status_response` returns the checksum-mismatch
error carrying both values and removes exactly that frame's stuffed bytes
from the read buffer: the remaining valid region consists of exactly the
bytes that followed the frame, so a subsequent call sees none of the
rejected frame's bytes. -/
theorem c3_checksum_mismatch_discards_frame (crc : List Nat → Nat)
    (deadline t cap : Nat) (pid ins err c0 c1 : Nat) (sp R : List Nat)
    (ht : ¬ deadline < t)
    (hfield : sp.length + 4 < 65536)
    (hcap : (11 + sp.length) + R.length ≤ cap)
    (hbad : readU16le c0 c1 ≠ crc ([0xFF, 0xFF, 0xFD, 0x00, pid, (sp.length + 4) % 256,
        (sp.length + 4) / 256 % 256, ins, err] ++ sp)) :
    ∃ stErr,
      read_status_response crc deadline
          [(t, ([0xFF, 0xFF, 0xFD, 0x00, pid, (sp.length + 4) % 256,
              (sp.length + 4) / 256 % 256, ins, err] ++ sp ++ [c0, c1]) ++ R)]
          ⟨List.replicate cap 0, 0⟩
        = .invalidChecksum (readU16le c0 c1)
            (crc ([0xFF, 0xFF, 0xFD, 0x00, pid, (sp.length + 4) % 256,
                (sp.length + 4) / 256 % 256, ins, err] ++ sp)) stErr
      ∧ validRegion stErr = R
      ∧ stErr.readLen = R.length := by
  obtain ⟨tail, htail, hrun⟩ := readLoop_completes_frame crc deadline t [] cap [] R
    ([0xFF, 0xFF, 0xFD, 0x00, pid, (sp.length + 4) % 256,
      (sp.length + 4) / 256 % 256, ins, err] ++ sp ++ [c0, c1])
    pid ins err c0 c1 sp rfl
    (by intro i hi; simp at hi) ht hfield (by simp; omega)
  simp only [List.nil_append] at hrun
  rw [show (([0xFF, 0xFF, 0xFD, 0x00, pid, (sp.length + 4) % 256,
        (sp.length + 4) / 256 % 256, ins, err] ++ sp ++ [c0, c1]) ++ R) ++ tail
      = ([0xFF, 0xFF, 0xFD, 0x00, pid, (sp.length + 4) % 256,
        (sp.length + 4) / 256 % 256, ins, err] ++ sp) ++ ([c0, c1] ++ (R ++ tail))
      from by simp] at hrun
  rw [finish_status_frame_bad crc 0xFF 0xFF 0xFD 0x00 pid ((sp.length + 4) % 256)
    ((sp.length + 4) / 256 % 256) ins err c0 c1 sp (R ++ tail) _ hbad] at hrun
  refine ⟨_, hrun, ?_, ?_⟩
  · have h1 : (11 + sp.length : Nat)
        ≤ (([0xFF, 0xFF, 0xFD, 0x00, pid, (sp.length + 4) % 256,
            (sp.length + 4) / 256 % 256, ins, err] ++ sp ++ [c0, c1]) ++ R).length := by
      simp; omega
    have h2 : (([0xFF, 0xFF, 0xFD, 0x00, pid, (sp.length + 4) % 256,
          (sp.length + 4) / 256 % 256, ins, err] ++ sp ++ [c0, c1]) ++ R).length
        ≤ (([0xFF, 0xFF, 0xFD, 0x00, pid, (sp.length + 4) % 256,
            (sp.length + 4) / 256 % 256, ins, err] ++ sp)
            ++ ([c0, c1] ++ (R ++ tail))).length := by
      simp
    rw [validRegion_consume _ _ h1 h2]
    rw [show ([0xFF, 0xFF, 0xFD, 0x00, pid, (sp.length + 4) % 256,
          (sp.length + 4) / 256 % 256, ins, err] ++ sp) ++ ([c0, c1] ++ (R ++ tail))
        = (([0xFF, 0xFF, 0xFD, 0x00, pid, (sp.length + 4) % 256,
          (sp.length + 4) / 256 % 256, ins, err] ++ sp ++ [c0, c1]) ++ R) ++ tail
        from by simp]
    show ((((([0xFF, 0xFF, 0xFD, 0x00, pid, (sp.length + 4) % 256,
        (sp.length + 4) / 256 % 256, ins, err] ++ sp ++ [c0, c1]) ++ R) ++ tail).take
          ((([0xFF, 0xFF, 0xFD, 0x00, pid, (sp.length + 4) % 256,
            (sp.length + 4) / 256 % 256, ins, err] ++ sp ++ [c0, c1]) ++ R).length)).drop
        (11 + sp.length)) = R
    rw [List.take_left]
    rw [show (11 + sp.length : Nat)
        = ([0xFF, 0xFF, 0xFD, 0x00, pid, (sp.length + 4) % 256,
          (sp.length + 4) / 256 % 256, ins, err] ++ sp ++ [c0, c1]).length
        from (by simp; omega)]
    exact List.drop_left _ _
  · show (([0xFF, 0xFF, 0xFD, 0x00, pid, (sp.length + 4) % 256,
        (sp.length + 4) / 256 % 256, ins, err] ++ sp ++ [c0, c1]) ++ R).length
        - (11 + sp.length) = R.length
    simp; omega

/-- Witness for **C3**: a zero-parameter frame whose checksum bytes do not
match (message checksum 1, computed 0) is rejected and fully discarded. -/
theorem c3_checksum_mismatch_discards_frame_witness :
    ∃ stErr,
      read_status_response (fun _ => 0) 10
          [(0, ([0xFF, 0xFF, 0xFD, 0x00, 0x01, 0x04, 0x00, 0x55, 0x00]
              ++ ([] : List Nat) ++ [1, 0]) ++ ([] : List Nat))]
          ⟨List.replicate 16 0, 0⟩
        = .invalidChecksum (readU16le 1 0) 0 stErr
      ∧ validRegion stErr = ([] : List Nat)
      ∧ stErr.readLen = 0 :=
  c3_checksum_mismatch_discards_frame (fun _ => 0) 10 0 16 1 0x55 0 1 0 [] []
    (by omega) (by decide) (by decide) (by decide)

/-- **C2.** Resynchronization: (1) `find_header` returns the first position
whose suffix begins with a (possibly clipped) header magic — every earlier
position does not, and the position never exceeds the buffer length, so a
trailing clipped match is preserved rather than discarded; (2)
`remove_garbage` discards exactly the bytes strictly before that position,
shifting the remainder to offset 0; (3) for garbage `G` containing no
header-magic occurrence followed by a frame starting with the full magic,
exactly `G.length` bytes are classified as garbage; and (4) prepending such
garbage to a valid stuffed status frame still yields that frame's packet
id, error code and parameters — the complete frame is decoded correctly
after exactly the garbage is discarded. -/
theorem c2_resync_discards_garbage (crc : List Nat → Nat) (Hcrc : ∀ l, crc l < 65536) :
    (∀ buf : List Nat,
      magicFragAt (buf.drop (find_header buf)) = true
      ∧ (∀ j < find_header buf, magicFragAt (buf.drop j) = false)
      ∧ find_header buf ≤ buf.length)
    ∧ (∀ st : BusState, st.readLen ≤ st.buf.length →
        validRegion (remove_garbage st)
          = (validRegion st).drop (find_header (validRegion st))
        ∧ (remove_garbage st).readLen = st.readLen - find_header (validRegion st))
    ∧ (∀ G F : List Nat, HEADER_MAGIC <+: F →
        (∀ i, i + 4 ≤ G.length → ¬ HEADER_MAGIC <+: G.drop i) →
        find_header (G ++ F) = G.length)
    ∧ (∀ (deadline t cap pid : Nat) (G params : List Nat),
        ¬ deadline < t →
        (∀ i, i + 4 ≤ G.length → ¬ HEADER_MAGIC <+: G.drop i) →
        (stuff params).length + 4 < 65536 →
        G.length + (11 + (stuff params).length) ≤ cap →
        ∃ stOk,
          read_status_response crc deadline
              [(t, G ++ mkStatusFrame crc pid 0 params)]
              ⟨List.replicate cap 0, 0⟩
            = .response pid 0 params (11 + (stuff params).length) stOk) := by
  refine ⟨?_, ?_, ?_, ?_⟩
  · intro buf
    exact ⟨magicFragAt_drop_find_header buf, find_header_minimal buf,
      find_header_le_length buf⟩
  · intro st h
    have hg : find_header (validRegion st) ≤ st.readLen :=
      le_trans (find_header_le_length _) (by simp [validRegion])
    exact ⟨validRegion_consume st _ hg h, rfl⟩
  · intro G F hF hG
    exact find_header_append_magic G F hF hG
  · intro deadline t cap pid G params ht hG hfield hcap
    have hmk : mkStatusFrame crc pid 0 params
        = [0xFF, 0xFF, 0xFD, 0x00, pid, ((stuff params).length + 4) % 256,
            ((stuff params).length + 4) / 256 % 256, STATUS_ID, 0] ++ stuff params
          ++ [crc (statusFrameCore pid 0 params) % 256,
              crc (statusFrameCore pid 0 params) / 256 % 256] := by
      simp [mkStatusFrame, statusFrameCore, le16]
    obtain ⟨tail, htail, hrun⟩ := readLoop_completes_frame crc deadline t [] cap G
      [] (mkStatusFrame crc pid 0 params) pid STATUS_ID 0
      (crc (statusFrameCore pid 0 params) % 256)
      (crc (statusFrameCore pid 0 params) / 256 % 256) (stuff params)
      hmk hG ht hfield (by rw [mkStatusFrame_length]; simp at hcap ⊢; omega)
    simp only [List.append_nil] at hrun htail
    rw [show mkStatusFrame crc pid 0 params ++ tail
        = ([0xFF, 0xFF, 0xFD, 0x00, pid, ((stuff params).length + 4) % 256,
            ((stuff params).length + 4) / 256 % 256, STATUS_ID, 0] ++ stuff params)
          ++ ([crc (statusFrameCore pid 0 params) % 256,
              crc (statusFrameCore pid 0 params) / 256 % 256] ++ tail)
        from by rw [hmk]; simp] at hrun
    rw [finish_status_frame_ok crc 0xFF 0xFF 0xFD 0x00 pid
      (((stuff params).length + 4) % 256) (((stuff params).length + 4) / 256 % 256)
      (crc (statusFrameCore pid 0 params) % 256)
      (crc (statusFrameCore pid 0 params) / 256 % 256) (stuff params) tail _
      (by
        rw [show [0xFF, 0xFF, 0xFD, 0x00, pid, ((stuff params).length + 4) % 256,
            ((stuff params).length + 4) / 256 % 256, STATUS_ID, 0] ++ stuff params
          = statusFrameCore pid 0 params from rfl]
        exact readU16le_le16 _ (Hcrc _))] at hrun
    rw [unstuff_stuff] at hrun
    exact ⟨_, hrun⟩

/-- Witness for **C2**: two garbage bytes before a zero-parameter status
frame are discarded and the frame decodes to packet id 3. -/
theorem c2_resync_discards_garbage_witness :
    ∃ stOk,
      read_status_response (fun l => l.length % 65536) 10
          [(0, [0x01, 0x02] ++ mkStatusFrame (fun l => l.length % 65536) 3 0 [])]
          ⟨List.replicate 32 0, 0⟩
        = .response 3 0 [] 11 stOk :=
  (c2_resync_discards_garbage (fun l => l.length % 65536)
      (fun l => Nat.mod_lt _ (by omega))).2.2.2
    10 0 32 3 [0x01, 0x02] [] (by omega) (by intro i hi; simp at hi) (by decide) (by decide)

theorem drop_patched_buf (A9 P BUF : List Nat) (L : Nat) (hA9 : A9.length = 9)
    (hk : STATUS_HEADER_SIZE + P.length ≤ L) :
    ((A9 ++ P) ++ BUF.drop (STATUS_HEADER_SIZE + P.length)).drop L = BUF.drop L := by
  have h9 : STATUS_HEADER_SIZE = 9 := rfl
  rw [show ((A9 ++ P) ++ BUF.drop (STATUS_HEADER_SIZE + P.length)).drop L
      = ((A9 ++ P) ++ BUF.drop (STATUS_HEADER_SIZE + P.length)).drop
          ((A9 ++ P).length + (L - (STATUS_HEADER_SIZE + P.length))) from by
        congr 1
        simp only [List.length_append, hA9]
        omega]
  rw [List.drop_append, List.drop_drop]
  congr 1
  omega

theorem finish_invalidInstruction_dropped (crc : List Nat → Nat) (L : Nat)
    (st : BusState) (i : Nat) (st'' : BusState)
    (h : finish_status_frame crc L st = .invalidInstruction i st'') :
    ∃ stm, st'' = dropResponse stm L := by
  unfold finish_status_frame at h
  simp only [] at h
  split at h
  · cases h
  · split at h
    · cases h
      exact ⟨_, rfl⟩
    · split at h
      · cases h
      · cases h

theorem finish_motorError_dropped (crc : List Nat → Nat) (L : Nat)
    (st : BusState) (e : Nat) (st'' : BusState)
    (h : finish_status_frame crc L st = .motorError e st'') :
    ∃ stm, st'' = dropResponse stm L := by
  unfold finish_status_frame at h
  simp only [] at h
  split at h
  · cases h
  · split at h
    · cases h
    · split at h
      · cases h
        exact ⟨_, rfl⟩
      · cases h

/-- **C4.** Releasing a `Response` handle always runs exactly the same
buffer reclamation: (1) the drop consumes the frame's stuffed bytes,
shifting the bytes after the frame to offset 0 and decrementing the valid
length by the stuffed frame length; (2) on the error paths after handle
construction (the framing-fault and device-fault checks) the returned state
is precisely a dropped handle's state; and (3) with two complete status
frames delivered back-to-back in one underlying read, the first
`read_status_response` returns only the first frame's data, and releasing
its handle leaves exactly the second frame's bytes at the head of the
buffer. -/
theorem c4_response_drop_reclaims_buffer (crc : List Nat → Nat)
    (Hcrc : ∀ l, crc l < 65536) :
    (∀ (st : BusState) (L : Nat), L ≤ st.readLen → st.readLen ≤ st.buf.length →
      (dropResponse st L).readLen = st.readLen - L
      ∧ validRegion (dropResponse st L) = (validRegion st).drop L)
    ∧ (∀ (L : Nat) (st : BusState) (i : Nat) (st'' : BusState),
        finish_status_frame crc L st = .invalidInstruction i st'' →
        ∃ stm, st'' = dropResponse stm L)
    ∧ (∀ (L : Nat) (st : BusState) (e : Nat) (st'' : BusState),
        finish_status_frame crc L st = .motorError e st'' →
        ∃ stm, st'' = dropResponse stm L)
    ∧ (∀ (deadline t cap pid1 pid2 : Nat) (params1 params2 : List Nat),
        ¬ deadline < t →
        (stuff params1).length + 4 < 65536 →
        (11 + (stuff params1).length) + (11 + (stuff params2).length) ≤ cap →
        ∃ stOk,
          read_status_response crc deadline
              [(t, mkStatusFrame crc pid1 0 params1 ++ mkStatusFrame crc pid2 0 params2)]
              ⟨List.replicate cap 0, 0⟩
            = .response pid1 0 params1 (11 + (stuff params1).length) stOk
          ∧ validRegion (dropResponse stOk (11 + (stuff params1).length))
              = mkStatusFrame crc pid2 0 params2
          ∧ (dropResponse stOk (11 + (stuff params1).length)).readLen
              = (mkStatusFrame crc pid2 0 params2).length) := by
  refine ⟨?_, ?_, ?_, ?_⟩
  · intro st L h1 h2
    exact ⟨rfl, validRegion_consume st L h1 h2⟩
  · intro L st i st'' h
    exact finish_invalidInstruction_dropped crc L st i st'' h
  · intro L st e st'' h
    exact finish_motorError_dropped crc L st e st'' h
  · intro deadline t cap pid1 pid2 params1 params2 ht hfield hcap
    have hp1 : params1.length ≤ (stuff params1).length := by
      have h := unstuff_length_le (stuff params1)
      rw [unstuff_stuff] at h
      exact h
    have hmk1 : mkStatusFrame crc pid1 0 params1
        = [0xFF, 0xFF, 0xFD, 0x00, pid1, ((stuff params1).length + 4) % 256,
            ((stuff params1).length + 4) / 256 % 256, STATUS_ID, 0] ++ stuff params1
          ++ [crc (statusFrameCore pid1 0 params1) % 256,
              crc (statusFrameCore pid1 0 params1) / 256 % 256] := by
      simp [mkStatusFrame, statusFrameCore, le16]
    obtain ⟨tail, htail, hrun⟩ := readLoop_completes_frame crc deadline t [] cap []
      (mkStatusFrame crc pid2 0 params2) (mkStatusFrame crc pid1 0 params1)
      pid1 STATUS_ID 0
      (crc (statusFrameCore pid1 0 params1) % 256)
      (crc (statusFrameCore pid1 0 params1) / 256 % 256) (stuff params1)
      hmk1 (by intro i hi; simp at hi) ht hfield
      (by rw [mkStatusFrame_length, mkStatusFrame_length]; simp; omega)
    simp only [List.nil_append] at hrun
    rw [show mkStatusFrame crc pid1 0 params1 ++ mkStatusFrame crc pid2 0 params2 ++ tail
        = ([0xFF, 0xFF, 0xFD, 0x00, pid1, ((stuff params1).length + 4) % 256,
            ((stuff params1).length + 4) / 256 % 256, STATUS_ID, 0] ++ stuff params1)
          ++ ([crc (statusFrameCore pid1 0 params1) % 256,
              crc (statusFrameCore pid1 0 params1) / 256 % 256]
            ++ (mkStatusFrame crc pid2 0 params2 ++ tail))
        from by rw [hmk1]; simp] at hrun
    rw [finish_status_frame_ok crc 0xFF 0xFF 0xFD 0x00 pid1
      (((stuff params1).length + 4) % 256) (((stuff params1).length + 4) / 256 % 256)
      (crc (statusFrameCore pid1 0 params1) % 256)
      (crc (statusFrameCore pid1 0 params1) / 256 % 256) (stuff params1)
      (mkStatusFrame crc pid2 0 params2 ++ tail) _
      (by
        rw [show [0xFF, 0xFF, 0xFD, 0x00, pid1, ((stuff params1).length + 4) % 256,
            ((stuff params1).length + 4) / 256 % 256, STATUS_ID, 0] ++ stuff params1
          = statusFrameCore pid1 0 params1 from rfl]
        exact readU16le_le16 _ (Hcrc _))] at hrun
    rw [unstuff_stuff] at hrun
    refine ⟨_, hrun, ?_, ?_⟩
    · unfold dropResponse
      have hL1 : (11 + (stuff params1).length : Nat)
          ≤ (mkStatusFrame crc pid1 0 params1 ++ mkStatusFrame crc pid2 0 params2).length := by
        simp [mkStatusFrame_length]
      have hbuf : (mkStatusFrame crc pid1 0 params1 ++ mkStatusFrame crc pid2 0 params2).length
          ≤ (([0xFF, 0xFF, 0xFD, 0x00, pid1, ((stuff params1).length + 4) % 256,
              ((stuff params1).length + 4) / 256 % 256, STATUS_ID, 0] ++ params1)
            ++ ((([0xFF, 0xFF, 0xFD, 0x00, pid1, ((stuff params1).length + 4) % 256,
                ((stuff params1).length + 4) / 256 % 256, STATUS_ID, 0] ++ stuff params1)
              ++ ([crc (statusFrameCore pid1 0 params1) % 256,
                  crc (statusFrameCore pid1 0 params1) / 256 % 256]
                ++ (mkStatusFrame crc pid2 0 params2 ++ tail))).drop
                  (STATUS_HEADER_SIZE + params1.length))).length := by
        have h9 : STATUS_HEADER_SIZE = 9 := rfl
        simp [mkStatusFrame_length]
        omega
      rw [validRegion_consume _ _ hL1 hbuf]
      unfold validRegion
      dsimp only
      rw [List.drop_take]
      rw [drop_patched_buf _ params1 _ _ (by simp) (by
        have h9 : STATUS_HEADER_SIZE = 9 := rfl
        omega)]
      rw [show ([0xFF, 0xFF, 0xFD, 0x00, pid1, ((stuff params1).length + 4) % 256,
            ((stuff params1).length + 4) / 256 % 256, STATUS_ID, 0] ++ stuff params1)
          ++ ([crc (statusFrameCore pid1 0 params1) % 256,
              crc (statusFrameCore pid1 0 params1) / 256 % 256]
            ++ (mkStatusFrame crc pid2 0 params2 ++ tail))
          = ([0xFF, 0xFF, 0xFD, 0x00, pid1, ((stuff params1).length + 4) % 256,
              ((stuff params1).length + 4) / 256 % 256, STATUS_ID, 0] ++ stuff params1
              ++ [crc (statusFrameCore pid1 0 params1) % 256,
                  crc (statusFrameCore pid1 0 params1) / 256 % 256])
            ++ (mkStatusFrame crc pid2 0 params2 ++ tail) from by simp]
      rw [show (11 + (stuff params1).length : Nat)
          = ([0xFF, 0xFF, 0xFD, 0x00, pid1, ((stuff params1).length + 4) % 256,
              ((stuff params1).length + 4) / 256 % 256, STATUS_ID, 0] ++ stuff params1
              ++ [crc (statusFrameCore pid1 0 params1) % 256,
                  crc (statusFrameCore pid1 0 params1) / 256 % 256]).length
          from (by simp; omega)]
      rw [List.drop_left]
      rw [show (mkStatusFrame crc pid1 0 params1 ++ mkStatusFrame crc pid2 0 params2).length
          - ([0xFF, 0xFF, 0xFD, 0x00, pid1, ((stuff params1).length + 4) % 256,
              ((stuff params1).length + 4) / 256 % 256, STATUS_ID, 0] ++ stuff params1
              ++ [crc (statusFrameCore pid1 0 params1) % 256,
                  crc (statusFrameCore pid1 0 params1) / 256 % 256]).length
          = (mkStatusFrame crc pid2 0 params2).length
          from (by simp [mkStatusFrame_length]; omega)]
      rw [List.take_left]
    · show (mkStatusFrame crc pid1 0 params1 ++ mkStatusFrame crc pid2 0 params2).length
          - (11 + (stuff params1).length) = (mkStatusFrame crc pid2 0 params2).length
      simp [mkStatusFrame_length]

/-- Witness for **C4**: two zero-parameter frames back-to-back; the first
read yields the first frame's data and dropping its handle leaves exactly
the second frame buffered. -/
theorem c4_response_drop_reclaims_buffer_witness :
    ∃ stOk,
      read_status_response (fun l => l.length % 65536) 10
          [(0, mkStatusFrame (fun l => l.length % 65536) 1 0 []
              ++ mkStatusFrame (fun l => l.length % 65536) 2 0 [])]
          ⟨List.replicate 32 0, 0⟩
        = .response 1 0 [] 11 stOk
      ∧ validRegion (dropResponse stOk 11) = mkStatusFrame (fun l => l.length % 65536) 2 0 []
      ∧ (dropResponse stOk 11).readLen
          = (mkStatusFrame (fun l => l.length % 65536) 2 0 []).length :=
  (c4_response_drop_reclaims_buffer (fun l => l.length % 65536)
      (fun l => Nat.mod_lt _ (by omega))).2.2.2
    10 0 32 1 2 [] [] (by omega) (by decide) (by decide)

/-- **C8.** `transfer_single` writes the instruction, reads one status
frame, and additionally verifies that the response's packet id equals the
packet id that was sent: when the read yields a response with packet id
`pid`, the transfer returns that response exactly when `pid = packetId`,
and otherwise returns the packet-id-mismatch error over the
dropped-response state; every non-response read outcome is propagated
verbatim; and the mismatch error is a constructor distinct from the
generic framing fault.  The characterization holds uniformly for every
packet id — including the broadcast id `0xFE` — because the function has
no broadcast handling. -/
theorem c8_transfer_single_verifies_packet_id (crc : List Nat → Nat)
    (writeCap deadline : Nat) (events : List (Nat × List Nat)) (st st1 : BusState)
    (packetId instructionId : Nat) (params : List Nat) (msg : List Nat)
    (hw : write_instruction_state crc writeCap st packetId instructionId params
        = (st1, .sent msg)) :
    (∀ pid err prms L st2,
      read_status_response crc deadline events st1 = .response pid err prms L st2 →
      (pid = packetId →
        transfer_single crc writeCap deadline events st packetId instructionId params
          = .ok pid err prms L st2)
      ∧ (pid ≠ packetId →
        transfer_single crc writeCap deadline events st packetId instructionId params
          = .invalidPacketId pid packetId (dropResponse st2 L)))
    ∧ (∀ r, read_status_response crc deadline events st1 = r →
        (∀ pid err prms L st2, r ≠ .response pid err prms L st2) →
        transfer_single crc writeCap deadline events st packetId instructionId params
          = .readFailed r)
    ∧ (∀ (a b : Nat) (s : BusState) (i : Nat) (s' : BusState),
        TransferOutcome.invalidPacketId a b s
          ≠ TransferOutcome.readFailed (.invalidInstruction i s')) := by
  refine ⟨?_, ?_, ?_⟩
  · intro pid err prms L st2 hr
    unfold transfer_single
    rw [hw]
    simp only []
    rw [hr]
    simp only []
    constructor
    · intro hpid
      rw [if_neg (not_not_intro hpid)]
    · intro hpid
      rw [if_pos hpid]
  · intro r hr hnr
    unfold transfer_single
    rw [hw]
    simp only []
    rw [hr]
    cases r with
    | response pid err prms L st2 => exact absurd rfl (hnr pid err prms L st2)
    | timeout s => rfl
    | fuelOut s => rfl
    | panicLenUnderflow s => rfl
    | invalidChecksum m c s => rfl
    | invalidInstruction i s => rfl
    | motorError e s => rfl
  · intro a b s i s' h
    cases h

/-- Witness for **C8**: a device replies with packet id 9 to an instruction
sent to packet id 1; the transfer returns the packet-id-mismatch error with
the frame consumed. -/
theorem c8_transfer_single_verifies_packet_id_witness :
    transfer_single (fun _ => 0) 32 10
        [(0, [0xFF, 0xFF, 0xFD, 0x00, 0x09, 0x04, 0x00, 0x55, 0x00, 0x00, 0x00])]
        ⟨List.replicate 32 0, 0⟩ 1 2 []
      = .invalidPacketId 9 1
          (dropResponse
            ⟨[0xFF, 0xFF, 0xFD, 0x00, 0x09, 0x04, 0x00, 0x55, 0x00, 0x00, 0x00]
              ++ List.replicate 21 0, 11⟩ 11) := by
  have h := (c8_transfer_single_verifies_packet_id (fun _ => 0) 32 10
      [(0, [0xFF, 0xFF, 0xFD, 0x00, 0x09, 0x04, 0x00, 0x55, 0x00, 0x00, 0x00])]
      ⟨List.replicate 32 0, 0⟩ ⟨List.replicate 32 0, 0⟩ 1 2 []
      [0xFF, 0xFF, 0xFD, 0x00, 0x01, 0x03, 0x00, 0x02, 0x00, 0x00]
      (by rfl)).1 9 0 [] 11
      ⟨[0xFF, 0xFF, 0xFD, 0x00, 0x09, 0x04, 0x00, 0x55, 0x00, 0x00, 0x00]
        ++ List.replicate 21 0, 11⟩ (by rfl)
  exact h.2 (by decide)

/-- **C10.** Every operation of the bus preserves the buffer bookkeeping
invariant — the valid length never exceeds the (unchanged) buffer
capacity, with the valid bytes occupying `[0, read_len)` left-aligned at
offset 0: consuming read bytes (under the source's `debug_assert` bound),
removing garbage, reading from the transport into the buffer tail, writing
an instruction, every exit of `read_status_response`, and releasing a
`Response` handle (whose claimed stuffed length never exceeds the buffered
length). -/
theorem c10_buffer_invariant_preserved (cap : Nat) :
    (∀ (st : BusState) (len : Nat), WF cap st → len ≤ st.readLen →
      WF cap (consume_read_bytes st len))
    ∧ (∀ st : BusState, WF cap st → WF cap (remove_garbage st))
    ∧ (∀ (st : BusState) (chunk : List Nat), WF cap st → WF cap (appendChunk st chunk))
    ∧ (∀ (crc : List Nat → Nat) (writeCap : Nat) (st : BusState)
        (packetId instructionId : Nat) (params : List Nat), WF cap st →
        WF cap (write_instruction_state crc writeCap st packetId instructionId params).1)
    ∧ (∀ (crc : List Nat → Nat) (deadline : Nat) (events : List (Nat × List Nat))
        (st : BusState), WF cap st →
        WF cap (read_status_response crc deadline events st).stateOf
        ∧ ∀ pid err prms L st',
            read_status_response crc deadline events st = .response pid err prms L st' →
            L ≤ st'.readLen)
    ∧ (∀ (st : BusState) (L : Nat), WF cap st → L ≤ st.readLen →
        WF cap (dropResponse st L)) := by
  refine ⟨?_, ?_, ?_, ?_, ?_, ?_⟩
  · intro st len hwf hle
    exact WF_consume cap st len hwf hle
  · intro st hwf
    exact WF_remove_garbage cap st hwf
  · intro st chunk hwf
    exact WF_appendChunk cap st chunk hwf
  · intro crc writeCap st packetId instructionId params hwf
    unfold write_instruction_state
    dsimp only
    split
    · exact ⟨hwf.1, Nat.zero_le cap⟩
    · split
      · exact ⟨hwf.1, Nat.zero_le cap⟩
      · exact ⟨hwf.1, Nat.zero_le cap⟩
  · intro crc deadline events st hwf
    exact WF_readLoop crc cap deadline events st hwf
  · intro st L hwf hle
    exact WF_consume cap st L hwf hle

/-- Witness for **C10**: the invariant holds after consuming two of three
buffered bytes from a four-byte buffer. -/
theorem c10_buffer_invariant_preserved_witness :
    WF 4 (consume_read_bytes ⟨[1, 2, 3, 0], 3⟩ 2) :=
  (c10_buffer_invariant_preserved 4).1 ⟨[1, 2, 3, 0], 3⟩ 2 ⟨by decide, by decide⟩ (by decide)
